import Mathlib

/-!
Verification of the outbound request-governance layer of the
`latte-chan/scryfall-connector` repository against its specification.

The TypeScript sources are shallowly embedded: the cooperative
(single-threaded, promise-chained) control flow is made explicit by passing
state and by oracles that supply the outcome of each network call; machine
time is modelled by natural/integer millisecond timestamps.
-/

namespace ScryfallConnector

/-- Minimal model of a JavaScript runtime value, as far as the sources
inspect one: `typeof x === "string"` / `typeof x === "number"` checks and
opaque JSON payloads.  `undef` models a missing property. -/
inductive JVal where
  | undef
  | str (s : String)
  | num (n : Int)
  | other
deriving DecidableEq, Repr

/-! ## Request governor: slot acquisition (src/csb.ts lines 14-34, identical in
the Scryfall client)

```ts
async function acquireSlot(): Promise<void> {
    const prev = queue;
    let release: () => void;
    const next = new Promise<void>((r) => (release = r));
    queue = next;
    await prev;
    const now = Date.now();
    const wait = Math.max(0, lastStart + intervalMs - now);
    if (wait > 0) await sleep(wait);
    lastStart = Date.now();
    release!();
}
```

Under the cooperative scheduler, the promise chain `queue` serializes the
callers in arrival order: caller `i` resumes after `await prev` no earlier
than both its own arrival time and the release time of caller `i-1`.  The
critical section (reading `lastStart`, sleeping, writing `lastStart`,
releasing) contains no interleaving point that another `acquireSlot` body
can enter, so the whole run is the following fold.  `lastStart` starts at 0
and the initial `queue` is already resolved (release time 0).  Idealized
timing: `Date.now()` after `sleep(wait)` reads `now + wait`.  Natural-number
subtraction makes `lastStart + intervalMs - now` the `Math.max(0, ...)` of
the source. -/
def runGov (intervalMs : Nat) : Nat → Nat → List Nat → List Nat
  | _, _, [] => []
  | lastStart, rel, a :: rest =>
    let now := max a rel
    let wait := lastStart + intervalMs - now
    let t := now + wait
    t :: runGov intervalMs t t rest

/-! ## Request loop: `getJson` (src/csb.ts lines 36-69; `postText` lines 71-107
shares the identical retry/back-off/error logic, and the Scryfall client's
`getJson` is character-for-character the same loop)

```ts
for (let attempt = 0; attempt <= maxRetries; attempt++) {
    await acquireSlot();
    const res = await fetch(url, {...});
    if (res.status === 429) {
        const retryAfter = Number(res.headers.get("Retry-After") || 0);
        const backoff = retryAfter > 0 ? retryAfter * 1000 : retryBaseMs * Math.pow(2, attempt);
        if (attempt < maxRetries) {
            await sleep(backoff);
            continue;
        }
    }
    if (!res.ok) {
        const text = await res.text().catch(() => "");
        throw new Error(`CSB request failed: ${res.status} ${res.statusText} - ${text}`);
    }
    return res.json() as Promise<unknown>;
}
throw new Error("CSB request failed after retries");
```

Each network call is supplied by an oracle `resps : Nat → Resp` indexed by
the attempt number. -/

/-- One HTTP response as the loop inspects it.  `retryAfter` is the value of
`Number(res.headers.get("Retry-After") || 0)`: 0 when the header is absent
or empty; a NaN result (unparseable header) behaves identically to 0 in the
only use site (`retryAfter > 0`) and is modelled as 0. -/
structure Resp where
  status : Nat
  statusText : String
  retryAfter : Int
  bodyText : String
  body : JVal
deriving DecidableEq, Repr

/-- Model of `res.ok`: status in the range [200, 300). -/
def respOk (r : Resp) : Bool := 200 ≤ r.status && r.status < 300

/-- The back-off computed for a 429 response:
`retryAfter > 0 ? retryAfter * 1000 : retryBaseMs * Math.pow(2, attempt)`. -/
def backoffMs (retryBaseMs : Nat) (attempt : Nat) (r : Resp) : Int :=
  if 0 < r.retryAfter then r.retryAfter * 1000 else (retryBaseMs : Int) * 2 ^ attempt

/-- Outcome of the request loop: parsed JSON body, the descriptive thrown
error (`CSB request failed: <status> <statusText> - <text>`), or the
generic post-loop error (`CSB request failed after retries`). -/
inductive ReqResult where
  | success (v : JVal)
  | httpError (msg : String)
  | exhausted (msg : String)
deriving DecidableEq, Repr

/-- The descriptive error message thrown on a non-ok response. -/
def errMsg (r : Resp) : String :=
  "CSB request failed: " ++ toString r.status ++ " " ++ r.statusText ++ " - " ++ r.bodyText

/-- A run of the request loop together with its observable I/O trace:
which attempt indices issued a network call, and which back-off sleeps ran. -/
structure ReqTrace where
  result : ReqResult
  fetches : List Nat
  sleeps : List Int
deriving DecidableEq, Repr

/-- The loop body of `getJson`, recursion on the remaining fuel
`maxRetries + 1 - attempt` (the `for` loop runs while `attempt <= maxRetries`,
so fuel 0 is the post-loop `throw`). -/
def getJsonGo (maxRetries retryBaseMs : Nat) (resps : Nat → Resp) (attempt : Nat) :
    Nat → ReqTrace
  | 0 => ⟨.exhausted "CSB request failed after retries", [], []⟩
  | fuel + 1 =>
    let r := resps attempt
    if r.status = 429 ∧ attempt < maxRetries then
      let rest := getJsonGo maxRetries retryBaseMs resps (attempt + 1) fuel
      ⟨rest.result, attempt :: rest.fetches, backoffMs retryBaseMs attempt r :: rest.sleeps⟩
    else if respOk r then ⟨.success r.body, [attempt], []⟩
    else ⟨.httpError (errMsg r), [attempt], []⟩

/-- `getJson` (and `postText`): run the loop from attempt 0. -/
def getJson (maxRetries retryBaseMs : Nat) (resps : Nat → Resp) : ReqTrace :=
  getJsonGo maxRetries retryBaseMs resps 0 (maxRetries + 1)

/-- A response stream of nothing but hint-less 429 responses. -/
def all429 : Nat → Resp := fun _ => ⟨429, "Too Many Requests", 0, "", .other⟩

/-- A 429 response carrying the header `Retry-After: 0` (a retry-after hint
of 0 seconds, so `Number(... || 0) = 0`), followed by successes. -/
def hint0Then200 : Nat → Resp := fun i =>
  if i = 0 then ⟨429, "Too Many Requests", 0, "", .other⟩ else ⟨200, "OK", 0, "", .str "ok"⟩

/-! ## Cross-reference index builder (src/csb-index.ts)

```ts
export async function buildCsbIndex(): Promise<CsbCardIndex> {
    const oracleToId: Record<string, number> = Object.create(null);
    const limit = 100;
    let offset = 0;
    let total = 0;
    while (true) {
        const page: any = await CSB.cards({ limit, offset });
        const results: any[] = Array.isArray(page?.results) ? page.results : [];
        total = Number(page?.count ?? total);
        for (const c of results) {
            const oid = c?.oracleId;
            const id = c?.id;
            if (typeof oid === "string" && typeof id === "number") {
                if (!(oid in oracleToId)) oracleToId[oid] = id;
            }
        }
        if (!page?.next || results.length === 0) break;
        offset += limit;
    }
    return { builtAtMs: Date.now(), total, oracleToId };
}
```

The network is an oracle `pages : Nat → Page` keyed by the requested
offset; the JS `Record` is an insertion-ordered association list with
unique keys; a `while (true)` loop is run on explicit fuel (`none` = fuel
exhausted, which no theorem below ever reaches). -/

/-- One catalog entry as the builder inspects it. -/
structure Entry where
  oracleId : JVal
  id : JVal
deriving DecidableEq, Repr

/-- One `/cards` page. `results = none` models a missing or non-array
`page.results`; `count = none` models an absent `page.count` (the `??`
keeps the previous total); `next` is the truthiness of `page.next`. -/
structure Page where
  results : Option (List Entry)
  count : Option Int
  next : Bool
deriving DecidableEq, Repr

/-- The persisted index value `{ builtAtMs, total, oracleToId }`. -/
structure CsbCardIndex where
  builtAtMs : Int
  total : Int
  oracleToId : List (String × Int)
deriving DecidableEq, Repr

/-- The body of the `for (const c of results)` loop: insert when the source
key is string-typed and the target value is number-typed and the key is not
yet present (first write wins). -/
def addEntry (acc : List (String × Int)) (c : Entry) : List (String × Int) :=
  match c.oracleId, c.id with
  | .str oid, .num id => if (acc.lookup oid).isSome then acc else acc ++ [(oid, id)]
  | _, _ => acc

/-- The `for` loop over one page's `results` array. -/
def addEntries (acc : List (String × Int)) (results : List Entry) : List (String × Int) :=
  results.foldl addEntry acc

/-- The `while (true)` pagination loop of `buildCsbIndex`, returning the
final `total`, the mapping and the list of offsets actually requested. -/
def buildGo (pages : Nat → Page) (limit : Nat) :
    Nat → Nat → Int → List (String × Int) → Option (Int × List (String × Int) × List Nat)
  | 0, _, _, _ => none
  | fuel + 1, offset, total, acc =>
    let page := pages offset
    let results := page.results.getD []
    let total' := page.count.getD total
    let acc' := addEntries acc results
    if page.next = false ∨ results.length = 0 then
      some (total', acc', [offset])
    else
      match buildGo pages limit fuel (offset + limit) total' acc' with
      | none => none
      | some (t, a, offs) => some (t, a, offset :: offs)

/-- A finished `buildCsbIndex()` run: the produced index plus the request
trace; `now` supplies `Date.now()` for `builtAtMs`. -/
structure BuildOut where
  index : CsbCardIndex
  fetchedOffsets : List Nat
deriving DecidableEq, Repr

def buildCsbIndex (pages : Nat → Page) (now : Int) (fuel : Nat) : Option BuildOut :=
  match buildGo pages 100 fuel 0 0 [] with
  | none => none
  | some (t, a, offs) => some ⟨⟨now, t, a⟩, offs⟩

/-- A catalog whose second page (offset 100) has a malformed `results`, with
a further well-formed page behind it at offset 200. -/
def pages4 : Nat → Page := fun off =>
  if off = 0 then ⟨some [⟨.str "a", .num 1⟩], some 3, true⟩
  else if off = 100 then ⟨none, some 3, true⟩
  else ⟨some [⟨.str "c", .num 3⟩], some 3, false⟩

/-- The fixture catalog server of the specification's testable property:
the full catalog `es` is served in pages of 100 from the requested offset,
every page reports `count = 250`, and `next` is present exactly while a
further page exists. -/
def servePages (es : List Entry) : Nat → Page := fun off =>
  ⟨some ((es.drop off).take 100), some 250, decide (off + 100 < 250)⟩

/-- Reference mapping, following the spec's words: scan the whole catalog in
order and keep exactly the entries that carry both a string-typed source key
and a numeric-typed target value, first write winning on duplicate keys. -/
def specOracleMap (es : List Entry) : List (String × Int) :=
  es.foldl addEntry []

/-! ## Three-tier cache resolution: `loadCsbIndex` (src/csb-index.ts lines 58-77)

```ts
export async function loadCsbIndex(options?): Promise<CsbCardIndex> {
    const ttl = options?.ttlMs ?? DEFAULT_TTL_MS;
    const cachePath = options?.cachePath ?? DEFAULT_CACHE_PATH;
    const now = Date.now();
    if (!options?.force && memCache && now - memCache.at < ttl) return memCache.data;
    if (!options?.force) {
        const disk = await readCsbIndex(cachePath);
        if (disk && now - disk.at < ttl) {
            memCache = { at: disk.at, data: disk.data };
            return disk.data;
        }
    }
    const data = await buildCsbIndex();
    memCache = { at: now, data };
    await writeCsbIndex(data, cachePath).catch(() => {});
    return data;
}
```

The effectful pieces are supplied by an environment: `disk` is the result of
`readCsbIndex` (already `null`-on-any-failure, see its `try/catch`),
`buildRes` the outcome of the network rebuild (which may throw), `writeRes`
the outcome of `writeCsbIndex` (whose failure the `.catch(() => {})`
swallows).  The function returns the value handed to the caller together
with the `memCache` cell after the call. -/

/-- The module-level `memCache` cell: `{ at, data }`. -/
structure MemCache where
  atMs : Int
  data : CsbCardIndex
deriving DecidableEq, Repr

/-- The effect environment of one `loadCsbIndex` call. -/
structure LoadEnv where
  now : Int
  mem : Option MemCache
  disk : Option MemCache
  buildRes : Except String CsbCardIndex
  writeRes : Except String String
deriving Repr

/-- The rebuild tier: `buildCsbIndex()` (errors propagate), adopt into
memory stamped with `now`, persist with failure swallowed, return the fresh
value. -/
def rebuildTier (env : LoadEnv) : Except String (CsbCardIndex × Option MemCache) :=
  match env.buildRes with
  | .error e => .error e
  | .ok data =>
    match env.writeRes with
    | .ok _ => .ok (data, some ⟨env.now, data⟩)
    | .error _ => .ok (data, some ⟨env.now, data⟩)

/-- The disk tier: adopt the persisted copy, stamped with the file's
modification time `d.atMs`, when it is younger than `ttl`. -/
def diskTier (ttl : Int) (env : LoadEnv) : Except String (CsbCardIndex × Option MemCache) :=
  match env.disk with
  | some d =>
    if env.now - d.atMs < ttl then .ok (d.data, some ⟨d.atMs, d.data⟩) else rebuildTier env
  | none => rebuildTier env

/-- `loadCsbIndex`, with the three tiers in source order. -/
def loadCsbIndex (force : Bool) (ttl : Int) (env : LoadEnv) :
    Except String (CsbCardIndex × Option MemCache) :=
  match force, env.mem with
  | false, some m =>
    if env.now - m.atMs < ttl then .ok (m.data, some m) else diskTier ttl env
  | false, none => diskTier ttl env
  | true, _ => rebuildTier env

/-! `fetchTaggerTags` (src/unnamed/part_003 lines 39-79) has the identical
three-tier shape:

```ts
export async function fetchTaggerTags(options?): Promise<TaggerTags> {
    const ttl = options?.ttlMs ?? DEFAULT_TTL_MS;
    const cachePath = options?.cachePath ?? DEFAULT_CACHE_PATH;
    const now = Date.now();
    if (!options?.force && memCache && now - memCache.at < ttl) return memCache.data;
    if (!options?.force) {
        const disk = await readTaggerCache(cachePath);
        if (disk && now - disk.at < ttl) {
            memCache = { at: disk.at, data: disk.data };
            return disk.data;
        }
    }
    // Network fetch ... (see tagNetworkTier and the extraction section)
}
```

The scraping of the fetched page is modelled in the tag-extraction section
further down; for the cache plumbing the fetched-and-extracted value
arrives through the environment, and `disk` is the `readTaggerCache`
result `{ data, at: st.mtimeMs }` (`null`-on-any-failure). -/

/-- The tag cache value `{ function: string[], art: string[] }`. -/
structure TaggerTags where
  function : List String
  art : List String
deriving DecidableEq, Repr

/-- The effect environment of the network tier of `fetchTaggerTags`:
`fetchRes` is the fetched-and-extracted tag set (a non-ok response or fetch
failure is its `.error`), `writeRes` the `writeTaggerCache` outcome. -/
structure TagFetchEnv where
  now : Int
  fetchRes : Except String TaggerTags
  writeRes : Except String String
deriving Repr

/-- The network tier of `fetchTaggerTags`: fetch errors propagate, the
fresh value is adopted into memory and returned, and the
`writeTaggerCache(...).catch(() => {})` failure is swallowed. -/
def tagNetworkTier (env : TagFetchEnv) : Except String (TaggerTags × Option (Int × TaggerTags)) :=
  match env.fetchRes with
  | .error e => .error e
  | .ok data =>
    match env.writeRes with
    | .ok _ => .ok (data, some (env.now, data))
    | .error _ => .ok (data, some (env.now, data))

/-- The full effect environment of one `fetchTaggerTags` call: the
module-level `memCache` pair `(at, data)` before the call, the
`readTaggerCache` result `(mtimeMs, data)`, and the network-tier effects. -/
structure TagEnv where
  now : Int
  mem : Option (Int × TaggerTags)
  disk : Option (Int × TaggerTags)
  fetchRes : Except String TaggerTags
  writeRes : Except String String
deriving Repr

/-- The disk tier of `fetchTaggerTags`: adopt the persisted copy, stamped
with the cache file's modification time `d.1`, when it is younger than
`ttl`; otherwise fall through to the network tier. -/
def tagDiskTier (ttl : Int) (env : TagEnv) :
    Except String (TaggerTags × Option (Int × TaggerTags)) :=
  match env.disk with
  | some d =>
    if env.now - d.1 < ttl then .ok (d.2, some (d.1, d.2))
    else tagNetworkTier ⟨env.now, env.fetchRes, env.writeRes⟩
  | none => tagNetworkTier ⟨env.now, env.fetchRes, env.writeRes⟩

/-- The cache resolution of `fetchTaggerTags`, with the three tiers in
source order (the extraction tail of the same source function is the
`fetchTaggerTags` definition in the next section). -/
def fetchTaggerTagsLoad (force : Bool) (ttl : Int) (env : TagEnv) :
    Except String (TaggerTags × Option (Int × TaggerTags)) :=
  match force, env.mem with
  | false, some m =>
    if env.now - m.1 < ttl then .ok (m.2, some m) else tagDiskTier ttl env
  | false, none => tagDiskTier ttl env
  | true, _ => tagNetworkTier ⟨env.now, env.fetchRes, env.writeRes⟩

/-! ## Tag extraction (src/unnamed/part_003 lines 61-75, src/tags.ts lines 23-37)

```ts
const re = /<a[^>]+href="\/search\?q=(oracletag%3A|otag%3A|function%3A|arttag%3A|atag%3A|art%3A)[^"]+"[^>]*>([^<]+)<\/a>/gim;
let m: RegExpExecArray | null;
while ((m = re.exec(html)) !== null) {
    const prefix = m[1].toLowerCase();
    const tagText = m[2].trim();
    if (!tagText) continue;
    if (prefix.startsWith("art")) artTags.push(tagText);
    else functionTags.push(tagText);
}
const data: TaggerTags = { function: uniqSorted(functionTags), art: uniqSorted(artTags) };
```

The regex scan is abstracted into its product: the list of matched anchors,
each carrying the first capture group (the marker, one of `oracletag%3A`,
`otag%3A`, `function%3A`, `arttag%3A`, `atag%3A`, `art%3A`, in whatever case
the page used) and the second capture group (the anchor text).  The
partition, the deduplication (`Array.from(new Set(...))`, keeping first
occurrences) and the sort (`.sort((a, b) => a.localeCompare(b))`) are
embedded below.  `localeCompare` is modelled for ASCII data as
case-insensitive lexicographic comparison with ties between strings equal
up to case broken by code-point order; the exact ICU tertiary order is
locale-dependent and never matters to the claims. -/

/-- One regex match: capture group 1 (the marker) and group 2 (the text). -/
structure Anchor where
  marker : String
  text : String
deriving DecidableEq, Repr

/-- `String.prototype.toLowerCase()`, character-wise; `Char.toLower` maps
the ASCII range exactly as JS does (the sources only ever lowercase ASCII
markers and tag names). -/
def jsToLower (s : String) : String := String.mk (s.data.map Char.toLower)

/-- The whitespace class trimmed by `String.prototype.trim()` (ASCII part;
JS additionally trims some Unicode space characters that never occur in the
scraped data). -/
def isJsSpace (c : Char) : Bool :=
  c == ' ' || c == '\t' || c == '\n' || c == '\r' || c == '\x0b' || c == '\x0c'

/-- `String.prototype.trim()`: drop leading and trailing whitespace. -/
def jsTrim (s : String) : String :=
  String.mk (((s.data.dropWhile isJsSpace).reverse.dropWhile isJsSpace).reverse)

def isPrefixList : List Char → List Char → Bool
  | [], _ => true
  | _ :: _, [] => false
  | p :: ps, c :: cs => p == c && isPrefixList ps cs

/-- `s.startsWith(pre)`. -/
def jsStartsWith (s pre : String) : Bool := isPrefixList pre.data s.data

/-- Lexicographic comparison of char lists by code point. -/
def charListLt : List Char → List Char → Bool
  | [], [] => false
  | [], _ :: _ => true
  | _ :: _, [] => false
  | a :: xs, b :: ys => if a < b then true else if b < a then false else charListLt xs ys

/-- Model of `a.localeCompare(b) < 0` (see the section comment). -/
def localeLt (a b : String) : Bool :=
  let la := (jsToLower a).data
  let lb := (jsToLower b).data
  if charListLt la lb then true
  else if charListLt lb la then false
  else charListLt a.data b.data

/-- `Array.from(new Set(values))`: duplicates removed, first occurrences
kept in order. -/
def dedupFirst (seen : List String) : List String → List String
  | [] => []
  | a :: rest =>
    if a ∈ seen then dedupFirst seen rest
    else a :: dedupFirst (a :: seen) rest

def insertSorted (x : String) : List String → List String
  | [] => [x]
  | y :: rest => if localeLt x y then x :: y :: rest else y :: insertSorted x rest

/-- `uniqSorted`: dedup then stable sort ascending by `localeCompare`. -/
def uniqSorted (values : List String) : List String :=
  (dedupFirst [] values).foldr insertSorted []

/-- The regex-match loop: lowercase the marker, trim the text, skip empty
text, route by `prefix.startsWith("art")`. -/
def extractLoop (fns arts : List String) : List Anchor → List String × List String
  | [] => (fns, arts)
  | a :: rest =>
    let pfx := jsToLower a.marker
    let tagText := jsTrim a.text
    if tagText = "" then extractLoop fns arts rest
    else if jsStartsWith pfx "art" then extractLoop fns (arts ++ [tagText]) rest
    else extractLoop (fns ++ [tagText]) arts rest

/-- The pure tail of `fetchTaggerTags`: from the matched anchors to the
`{ function, art }` value. -/
def fetchTaggerTags (anchors : List Anchor) : TaggerTags :=
  let p := extractLoop [] [] anchors
  ⟨uniqSorted p.1, uniqSorted p.2⟩

/-! ## `toKebabTag` (src/tags.ts lines 42-44, src/unnamed/part_003 lines 87-89)

```ts
export function toKebabTag(input: string): string {
    return input.trim().toLowerCase().replace(/[^a-z0-9]+/g, "-").replace(/^-+|-+$/g, "");
}
```

`trim` and `toLowerCase` reuse the models above; the first `replace`
rewrites every maximal run of characters outside `[a-z0-9]` to one hyphen,
the second strips leading and trailing hyphen runs. -/

/-- A character the first replace keeps: `[a-z0-9]`. -/
def isKebabChar (c : Char) : Bool := ('a' ≤ c && c ≤ 'z') || ('0' ≤ c && c ≤ '9')

/-- `replace(/[^a-z0-9]+/g, "-")`: the flag records whether the previous
character belonged to a run being replaced (so the run yields one hyphen). -/
def collapseAux : Bool → List Char → List Char
  | _, [] => []
  | prevBad, c :: rest =>
    if isKebabChar c then c :: collapseAux false rest
    else if prevBad then collapseAux true rest
    else '-' :: collapseAux true rest

/-- `replace(/^-+|-+$/g, "")`: strip leading and trailing hyphens. -/
def stripHyphens (l : List Char) : List Char :=
  ((l.dropWhile (fun c => c == '-')).reverse.dropWhile (fun c => c == '-')).reverse

/-- `toKebabTag`: trim, lowercase, collapse non-alphanumeric runs to
hyphens, strip outer hyphens. -/
def toKebabTag (s : String) : String :=
  String.mk (stripHyphens (collapseAux false ((jsTrim s).data.map Char.toLower)))

/-- A character that can occur in the collapsed string: kept or hyphen. -/
def goodChar (c : Char) : Bool := isKebabChar c || c == '-'

/-- No two adjacent hyphens. -/
def noHH (a b : Char) : Prop := ¬(a = '-' ∧ b = '-')

/-! ## Theorems -/

theorem runGov_head_le (intervalMs lastStart rel : Nat) (arr : List Nat) :
    ∀ y ∈ (runGov intervalMs lastStart rel arr).head?, lastStart + intervalMs ≤ y := by
  cases arr with
  | nil => intro y hy; simp [runGov] at hy
  | cons a rest =>
    intro y hy
    simp only [runGov, List.head?_cons, Option.mem_def, Option.some.injEq] at hy
    subst hy
    omega

theorem runGov_chain (intervalMs lastStart rel : Nat) (arr : List Nat) :
    List.Chain' (fun x y => x + intervalMs ≤ y) (runGov intervalMs lastStart rel arr) := by
  induction arr generalizing lastStart rel with
  | nil => simp [runGov]
  | cons a rest ih =>
    rw [runGov, List.chain'_cons']
    constructor
    · exact runGov_head_le intervalMs _ _ rest
    · exact ih _ _

theorem runGov_length (intervalMs : Nat) (lastStart rel : Nat) (arr : List Nat) :
    (runGov intervalMs lastStart rel arr).length = arr.length := by
  induction arr generalizing lastStart rel with
  | nil => simp [runGov]
  | cons a rest ih =>
    simp only [runGov, List.length_cons]
    rw [ih]

/-- C1: For every sequence of concurrent callers entering one governor's
`acquireSlot` (listed in promise-chain order, which is their arrival
order), every caller is dispatched (FIFO, one output timestamp per caller,
in arrival order), consecutive recorded `lastStart` timestamps differ by at
least `intervalMs`, and the timestamp sequence is non-decreasing. -/
theorem acquireSlot_fifo_spacing (intervalMs : Nat) (arrivals : List Nat) :
    (runGov intervalMs 0 0 arrivals).length = arrivals.length ∧
    List.Chain' (fun x y => x + intervalMs ≤ y) (runGov intervalMs 0 0 arrivals) ∧
    List.Chain' (fun x y => x ≤ y) (runGov intervalMs 0 0 arrivals) := by
  refine ⟨runGov_length intervalMs 0 0 arrivals, runGov_chain intervalMs 0 0 arrivals, ?_⟩
  exact (runGov_chain intervalMs 0 0 arrivals).imp (fun h => by omega)

/-- C2 counterexample: with the default budget (`maxRetries = 3`) and four
consecutive 429 responses, the call does NOT fail with the generic
"CSB request failed after retries" error: the final 429 falls through to the
`!res.ok` check and the descriptive status error is thrown instead. -/
theorem getJson_429_exhaustion_not_generic :
    (getJson 3 250 all429).result =
      .httpError "CSB request failed: 429 Too Many Requests - " ∧
    (getJson 3 250 all429).result ≠ .exhausted "CSB request failed after retries" := by
  constructor
  · rfl
  · intro h
    simp [getJson, getJsonGo, all429, respOk, errMsg] at h

theorem getJson_all429_go (maxRetries retryBaseMs : Nat) (resps : Nat → Resp)
    (h429 : ∀ i, i ≤ maxRetries → (resps i).status = 429) :
    ∀ fuel attempt, attempt ≤ maxRetries → fuel = maxRetries + 1 - attempt →
      getJsonGo maxRetries retryBaseMs resps attempt fuel =
        ⟨.httpError (errMsg (resps maxRetries)),
         List.range' attempt fuel,
         (List.range' attempt (fuel - 1)).map
           (fun i => backoffMs retryBaseMs i (resps i))⟩ := by
  intro fuel
  induction fuel with
  | zero => intro attempt h hfuel; omega
  | succ fuel ih =>
    intro attempt h hfuel
    rw [getJsonGo]
    rcases Nat.lt_or_ge attempt maxRetries with hlt | hge
    · rw [if_pos ⟨h429 attempt h, hlt⟩]
      rw [ih (attempt + 1) (by omega) (by omega)]
      simp only [ReqTrace.mk.injEq]
      refine ⟨trivial, ?_, ?_⟩
      · rw [List.range'_succ]
      · have h2 : fuel + 1 - 1 = (fuel - 1) + 1 := by omega
        rw [h2, List.range'_succ, List.map_cons]
    · have heq : attempt = maxRetries := by omega
      have hf0 : fuel = 0 := by omega
      subst heq hf0
      rw [if_neg (by omega)]
      have hok : respOk (resps attempt) = false := by
        simp [respOk, h429 attempt (le_refl _)]
      rw [if_neg (by simp [hok])]
      rfl

/-- C2 amended: after `maxRetries + 1` consecutive 429 responses the call
fails with the DESCRIPTIVE error of the final 429 response (the `!res.ok`
throw, whose message carries status 429), not the generic post-loop
"exhausted retries" error, and exactly `maxRetries + 1` network attempts are
made (attempts 0 .. maxRetries), none after the final 429. -/
theorem getJson_429_exhaustion (maxRetries retryBaseMs : Nat) (resps : Nat → Resp)
    (h429 : ∀ i, i ≤ maxRetries → (resps i).status = 429) :
    (getJson maxRetries retryBaseMs resps).result = .httpError (errMsg (resps maxRetries)) ∧
    (getJson maxRetries retryBaseMs resps).fetches = List.range (maxRetries + 1) := by
  have h := getJson_all429_go maxRetries retryBaseMs resps h429 (maxRetries + 1) 0
    (Nat.zero_le _) (by omega)
  rw [getJson, h]
  exact ⟨rfl, by rw [List.range_eq_range']⟩

/-- C2 amended, witness at `maxRetries = 3`, `retryBaseMs = 250` and a stream
of 429 responses. -/
theorem getJson_429_exhaustion_witness :
    (∀ i, i ≤ 3 → (all429 i).status = 429) ∧
    (getJson 3 250 all429).result = .httpError (errMsg (all429 3)) ∧
    (getJson 3 250 all429).fetches = List.range 4 :=
  ⟨fun _ _ => rfl, getJson_429_exhaustion 3 250 all429 (fun _ _ => rfl)⟩

/-- C5 counterexample: a 429 response carrying a retry-after hint of `R = 0`
seconds (header `Retry-After: 0`), with retries remaining, does NOT sleep
`R * 1000 = 0` ms: the guard `retryAfter > 0` rejects the hint and the
exponential formula `250 * 2^0 = 250` is used. -/
theorem getJson_retryAfter_zero_not_honored :
    (getJson 3 250 hint0Then200).sleeps = [250] ∧ (250 : Int) ≠ 0 * 1000 := by
  constructor
  · rfl
  · decide

/-- C5 amended: for every 429 response carrying a retry-after hint of `R`
seconds with `R > 0` (hints that `Number(...)` parses to a non-positive
value are treated like an absent header by the `retryAfter > 0` guard), when
at least one retry attempt remains, the next sleep is exactly `R * 1000` ms
and not the exponential formula. -/
theorem getJson_retryAfter_honored (maxRetries retryBaseMs attempt fuel : Nat)
    (resps : Nat → Resp) (R : Int)
    (h429 : (resps attempt).status = 429)
    (hR : (resps attempt).retryAfter = R)
    (hpos : 0 < R)
    (hrem : attempt < maxRetries) :
    (getJsonGo maxRetries retryBaseMs resps attempt (fuel + 1)).sleeps.head? =
      some (R * 1000) := by
  rw [getJsonGo, if_pos ⟨h429, hrem⟩]
  simp only [List.head?_cons, Option.some.injEq]
  rw [backoffMs, hR, if_pos hpos]

/-- C5 amended, witness: first response is a 429 with hint `R = 7` seconds;
the first sleep is exactly 7000 ms. -/
theorem getJson_retryAfter_honored_witness :
    ((fun _ => (⟨429, "Too Many Requests", 7, "", .other⟩ : Resp)) 0).status = 429 ∧
    (0 : Int) < 7 ∧ (0 : Nat) < 3 ∧
    (getJsonGo 3 250 (fun _ => ⟨429, "Too Many Requests", 7, "", .other⟩) 0
        (3 + 1)).sleeps.head? = some (7 * 1000) :=
  ⟨rfl, by decide, by decide,
    getJson_retryAfter_honored 3 250 0 3 (fun _ => ⟨429, "Too Many Requests", 7, "", .other⟩)
      7 rfl rfl (by decide) (by decide)⟩

/-- C6: every response with a non-429 non-success status makes the request
fail immediately — exactly one network attempt from this point, regardless
of the remaining retry budget (`fuel`) — and the thrown error message is the
template carrying the status code, the status text and the body text. -/
theorem getJson_non429_error_immediate (maxRetries retryBaseMs attempt fuel : Nat)
    (resps : Nat → Resp)
    (hnot429 : (resps attempt).status ≠ 429)
    (hnotOk : respOk (resps attempt) = false) :
    getJsonGo maxRetries retryBaseMs resps attempt (fuel + 1) =
      ⟨.httpError (errMsg (resps attempt)), [attempt], []⟩ ∧
    errMsg (resps attempt) =
      "CSB request failed: " ++ toString (resps attempt).status ++ " " ++
        (resps attempt).statusText ++ " - " ++ (resps attempt).bodyText := by
  constructor
  · rw [getJsonGo, if_neg (by intro hc; exact hnot429 hc.1), if_neg (by simp [hnotOk])]
  · rfl

/-- C6 witness: a 404 on attempt 0 with a full retry budget fails at once
with the descriptive message. -/
theorem getJson_non429_error_immediate_witness :
    ((fun _ => (⟨404, "Not Found", 0, "missing", .other⟩ : Resp)) 0).status ≠ 429 ∧
    respOk ((fun _ => (⟨404, "Not Found", 0, "missing", .other⟩ : Resp)) 0) = false ∧
    getJsonGo 3 250 (fun _ => ⟨404, "Not Found", 0, "missing", .other⟩) 0 (3 + 1) =
      ⟨.httpError (errMsg ((fun _ => (⟨404, "Not Found", 0, "missing", .other⟩ : Resp)) 0)),
       [0], []⟩ :=
  ⟨by decide, by decide,
    (getJson_non429_error_immediate 3 250 0 3 (fun _ => ⟨404, "Not Found", 0, "missing", .other⟩)
      (by decide) (by decide)).1⟩

/-- C4 counterexample: the malformed non-first page (offset 100) does NOT
merely continue pagination — the `results.length === 0` disjunct of the
break condition fires even though `page.next` is truthy, so only offsets 0
and 100 are ever requested, and the entry at offset 200 never enters the
mapping. -/
theorem buildCsbIndex_malformed_page_stops :
    buildCsbIndex pages4 0 10 = some ⟨⟨0, 3, [("a", 1)]⟩, [0, 100]⟩ ∧
    (200 : Nat) ∉ [0, 100] := by
  constructor
  · rfl
  · decide

/-- C4 amended: a page whose `results` is malformed or missing (first page
or not) is treated as an empty page, and pagination ENDS cleanly at that
page: the loop breaks (no exception), the count and the mapping accumulated
so far are returned, and no further offset is requested. -/
theorem buildCsbIndex_malformed_page_ends (pages : Nat → Page) (limit fuel offset : Nat)
    (total : Int) (acc : List (String × Int))
    (hmal : (pages offset).results = none) :
    buildGo pages limit (fuel + 1) offset total acc =
      some ((pages offset).count.getD total, acc, [offset]) := by
  rw [buildGo]
  simp only [hmal, Option.getD_none]
  rw [if_pos (Or.inr List.length_nil)]
  rfl

/-- C4 amended, witness: at offset 100 of `pages4` the results are
malformed; the loop returns at once with the accumulator unchanged. -/
theorem buildCsbIndex_malformed_page_ends_witness :
    (pages4 100).results = none ∧
    buildGo pages4 100 (9 + 1) 100 3 [("a", 1)] =
      some ((pages4 100).count.getD 3, [("a", 1)], [100]) :=
  ⟨rfl, buildCsbIndex_malformed_page_ends pages4 100 9 100 3 [("a", 1)] rfl⟩

theorem buildGo_step_break (pages : Nat → Page) (limit fuel offset : Nat) (total : Int)
    (acc : List (String × Int)) (rs : List Entry)
    (hres : (pages offset).results = some rs)
    (hstop : (pages offset).next = false ∨ rs = []) :
    buildGo pages limit (fuel + 1) offset total acc =
      some ((pages offset).count.getD total, addEntries acc rs, [offset]) := by
  rw [buildGo]
  simp only [hres, Option.getD_some]
  rw [if_pos (hstop.imp id (fun h => by rw [h]; rfl))]

theorem buildGo_step_cont (pages : Nat → Page) (limit fuel offset : Nat) (total t : Int)
    (acc a : List (String × Int)) (rs : List Entry) (offs : List Nat)
    (hres : (pages offset).results = some rs)
    (hnz : rs ≠ [])
    (hnext : (pages offset).next = true)
    (hrec : buildGo pages limit fuel (offset + limit)
        ((pages offset).count.getD total) (addEntries acc rs) = some (t, a, offs)) :
    buildGo pages limit (fuel + 1) offset total acc = some (t, a, offset :: offs) := by
  rw [buildGo]
  simp only [hres, Option.getD_some]
  rw [if_neg (by
    rintro (h | h)
    · rw [hnext] at h; exact Bool.noConfusion h
    · exact hnz (List.eq_nil_of_length_eq_zero h))]
  rw [hrec]

/-- C7: for every fixture catalog of 250 entries served in pages of 100
(three pages, the last partial, each page reporting count 250), `build()`
requests exactly offsets 0, 100, 200, reports `total = 250`, and produces
exactly the first-write-wins mapping of the entries having both a
string-typed `oracleId` and a numeric-typed `id`. -/
theorem buildCsbIndex_fixture (es : List Entry) (now : Int) (hlen : es.length = 250) :
    buildCsbIndex (servePages es) now 4 = some ⟨⟨now, 250, specOracleMap es⟩, [0, 100, 200]⟩ := by
  have h1 : (servePages es 0).results = some (es.take 100) := by
    simp [servePages]
  have h2 : (servePages es 100).results = some ((es.drop 100).take 100) := by
    simp [servePages]
  have h3 : (servePages es 200).results = some (es.drop 200) := by
    simp only [servePages]
    rw [List.take_of_length_le (by rw [List.length_drop, hlen]; omega)]
  have hn1 : (servePages es 0).next = true := by simp [servePages]
  have hn2 : (servePages es 100).next = true := by simp [servePages]
  have hn3 : (servePages es 200).next = false := by simp [servePages]
  have hnz1 : es.take 100 ≠ [] := by
    intro h
    have := congrArg List.length h
    rw [List.length_take, hlen] at this
    simp at this
  have hnz2 : (es.drop 100).take 100 ≠ [] := by
    intro h
    have := congrArg List.length h
    rw [List.length_take, List.length_drop, hlen] at this
    simp at this
  have hcnt : ∀ off, (servePages es off).count = some 250 := by
    intro off; rfl
  have hrun : buildGo (servePages es) 100 4 0 0 [] =
      some (250, specOracleMap es, [0, 100, 200]) := by
    refine buildGo_step_cont _ _ _ _ _ _ _ _ _ _ h1 hnz1 hn1 ?_
    refine buildGo_step_cont _ _ _ _ _ _ _ _ _ _ h2 hnz2 hn2 ?_
    rw [buildGo_step_break _ _ _ _ _ _ _ h3 (Or.inl hn3)]
    have hsplit : specOracleMap es =
        addEntries (addEntries (addEntries [] (es.take 100)) ((es.drop 100).take 100))
          (es.drop 200) := by
    -- the three pages concatenate back to the full catalog
      rw [specOracleMap, addEntries, addEntries, addEntries, ← List.foldl_append,
        ← List.foldl_append]
      congr 1
      have hdd : es.drop 200 = (es.drop 100).drop 100 := by
        rw [List.drop_drop]
      rw [hdd, List.take_append_drop, List.take_append_drop]
    rw [hcnt, hcnt, hcnt]
    rw [← hsplit]
    rfl
  rw [buildCsbIndex, hrun]

set_option maxRecDepth 20000 in
/-- C7 witness: a 250-entry catalog (with one repeated key, exercising
first-write-wins) run through the fixture pagination. -/
theorem buildCsbIndex_fixture_witness :
    (List.replicate 250 (⟨.str "a", .num 7⟩ : Entry)).length = 250 ∧
    buildCsbIndex (servePages (List.replicate 250 ⟨.str "a", .num 7⟩)) 0 4 =
      some ⟨⟨0, 250, specOracleMap (List.replicate 250 ⟨.str "a", .num 7⟩)⟩, [0, 100, 200]⟩ ∧
    specOracleMap (List.replicate 250 ⟨.str "a", .num 7⟩) = [("a", 7)] :=
  ⟨by decide,
   buildCsbIndex_fixture (List.replicate 250 ⟨.str "a", .num 7⟩) 0 (by decide),
   by decide⟩

/-- C8: whenever `loadCsbIndex` rebuilds (here: both caches are absent, so
every call rebuilds, forced or not) and the rebuild succeeds, a failing disk
persistence is swallowed: the freshly built value is still returned
unchanged — and the same holds for the network tier of `fetchTaggerTags`. -/
theorem load_persist_failure_swallowed (ttl : Int) (env : LoadEnv) (d : CsbCardIndex)
    (e : String) (tenv : TagFetchEnv) (td : TaggerTags) (te : String)
    (hbuild : env.buildRes = .ok d)
    (hwrite : env.writeRes = .error e)
    (hmem : env.mem = none)
    (hdisk : env.disk = none)
    (htfetch : tenv.fetchRes = .ok td)
    (htwrite : tenv.writeRes = .error te) :
    (∀ force, loadCsbIndex force ttl env = .ok (d, some ⟨env.now, d⟩)) ∧
    tagNetworkTier tenv = .ok (td, some (tenv.now, td)) := by
  obtain ⟨n, m, dk, br, wr⟩ := env
  obtain ⟨tn, tf, tw⟩ := tenv
  dsimp only at hbuild hwrite hmem hdisk htfetch htwrite ⊢
  subst hbuild hwrite hmem hdisk htfetch htwrite
  refine ⟨?_, rfl⟩
  intro force
  cases force with
  | false => rfl
  | true => rfl

/-- C8 witness: empty caches, successful rebuild, failing persistence. -/
theorem load_persist_failure_swallowed_witness :
    loadCsbIndex false 1000
        ⟨50, none, none, .ok ⟨50, 1, []⟩, .error "EACCES"⟩ =
      .ok (⟨50, 1, []⟩, some ⟨50, ⟨50, 1, []⟩⟩) ∧
    tagNetworkTier ⟨50, .ok ⟨["t"], []⟩, .error "EACCES"⟩ =
      .ok (⟨["t"], []⟩, some (50, ⟨["t"], []⟩)) :=
  ⟨(load_persist_failure_swallowed 1000 ⟨50, none, none, .ok ⟨50, 1, []⟩, .error "EACCES"⟩
      ⟨50, 1, []⟩ "EACCES" ⟨50, .ok ⟨["t"], []⟩, .error "EACCES"⟩ ⟨["t"], []⟩ "EACCES"
      rfl rfl rfl rfl rfl rfl).1 false,
   (load_persist_failure_swallowed 1000 ⟨50, none, none, .ok ⟨50, 1, []⟩, .error "EACCES"⟩
      ⟨50, 1, []⟩ "EACCES" ⟨50, .ok ⟨["t"], []⟩, .error "EACCES"⟩ ⟨["t"], []⟩ "EACCES"
      rfl rfl rfl rfl rfl rfl).2⟩

/-- C9: when `loadCsbIndex` (respectively the cache resolution of
`fetchTaggerTags`) adopts a disk-cached copy, the in-memory cell is stamped
with the cache file's modification time (`dsk.atMs` / `tat`, not the
reading time `env₁.now` / `tenv₁.now`), and a later call that serves that
cell from the memory tier returns a value whose age, measured from that
recorded stamp, is strictly below the TTL at the moment it is returned. -/
theorem load_mem_age_from_mtime (ttl : Int) (env₁ env₂ : LoadEnv) (dsk : MemCache)
    (tenv₁ tenv₂ : TagEnv) (tat : Int) (tdata : TaggerTags)
    (hmem₁ : env₁.mem = none)
    (hdisk₁ : env₁.disk = some dsk)
    (hfresh₁ : env₁.now - dsk.atMs < ttl)
    (hmem₂ : env₂.mem = some ⟨dsk.atMs, dsk.data⟩)
    (hfresh₂ : env₂.now - dsk.atMs < ttl)
    (htmem₁ : tenv₁.mem = none)
    (htdisk₁ : tenv₁.disk = some (tat, tdata))
    (htfresh₁ : tenv₁.now - tat < ttl)
    (htmem₂ : tenv₂.mem = some (tat, tdata))
    (htfresh₂ : tenv₂.now - tat < ttl) :
    loadCsbIndex false ttl env₁ = .ok (dsk.data, some ⟨dsk.atMs, dsk.data⟩) ∧
    loadCsbIndex false ttl env₂ = .ok (dsk.data, some ⟨dsk.atMs, dsk.data⟩) ∧
    env₂.now - dsk.atMs < ttl ∧
    fetchTaggerTagsLoad false ttl tenv₁ = .ok (tdata, some (tat, tdata)) ∧
    fetchTaggerTagsLoad false ttl tenv₂ = .ok (tdata, some (tat, tdata)) ∧
    tenv₂.now - tat < ttl := by
  obtain ⟨n₁, m₁, dk₁, br₁, wr₁⟩ := env₁
  obtain ⟨n₂, m₂, dk₂, br₂, wr₂⟩ := env₂
  obtain ⟨tn₁, tm₁, tdk₁, tf₁, tw₁⟩ := tenv₁
  obtain ⟨tn₂, tm₂, tdk₂, tf₂, tw₂⟩ := tenv₂
  dsimp only at hmem₁ hdisk₁ hfresh₁ hmem₂ hfresh₂ htmem₁ htdisk₁ htfresh₁ htmem₂ htfresh₂ ⊢
  subst hmem₁ hdisk₁ hmem₂ htmem₁ htdisk₁ htmem₂
  refine ⟨?_, ?_, hfresh₂, ?_, ?_, htfresh₂⟩
  · simp only [loadCsbIndex, diskTier]
    rw [if_pos hfresh₁]
  · simp only [loadCsbIndex]
    rw [if_pos hfresh₂]
  · simp only [fetchTaggerTagsLoad, tagDiskTier]
    rw [if_pos htfresh₁]
  · simp only [fetchTaggerTagsLoad]
    rw [if_pos htfresh₂]

/-- C9 witness: for both caches, the disk copy has mtime 40, is read at
time 100 and adopted with stamp 40 (not 100); a second call at time 150
serves it from memory with age 110 < ttl 200. -/
theorem load_mem_age_from_mtime_witness :
    loadCsbIndex false 200
        ⟨100, none, some ⟨40, ⟨40, 1, []⟩⟩, .ok ⟨100, 0, []⟩, .ok "p"⟩ =
      .ok (⟨40, 1, []⟩, some ⟨40, ⟨40, 1, []⟩⟩) ∧
    loadCsbIndex false 200
        ⟨150, some ⟨40, ⟨40, 1, []⟩⟩, none, .ok ⟨150, 0, []⟩, .ok "p"⟩ =
      .ok (⟨40, 1, []⟩, some ⟨40, ⟨40, 1, []⟩⟩) ∧
    (150 : Int) - 40 < 200 ∧
    fetchTaggerTagsLoad false 200
        ⟨100, none, some (40, ⟨["t"], []⟩), .ok ⟨[], []⟩, .ok "p"⟩ =
      .ok (⟨["t"], []⟩, some (40, ⟨["t"], []⟩)) ∧
    fetchTaggerTagsLoad false 200
        ⟨150, some (40, ⟨["t"], []⟩), none, .ok ⟨[], []⟩, .ok "p"⟩ =
      .ok (⟨["t"], []⟩, some (40, ⟨["t"], []⟩)) ∧
    (150 : Int) - 40 < 200 :=
  load_mem_age_from_mtime 200
    ⟨100, none, some ⟨40, ⟨40, 1, []⟩⟩, .ok ⟨100, 0, []⟩, .ok "p"⟩
    ⟨150, some ⟨40, ⟨40, 1, []⟩⟩, none, .ok ⟨150, 0, []⟩, .ok "p"⟩
    ⟨40, ⟨40, 1, []⟩⟩
    ⟨100, none, some (40, ⟨["t"], []⟩), .ok ⟨[], []⟩, .ok "p"⟩
    ⟨150, some (40, ⟨["t"], []⟩), none, .ok ⟨[], []⟩, .ok "p"⟩
    40 ⟨["t"], []⟩
    rfl rfl (by decide) rfl (by decide) rfl rfl (by decide) rfl (by decide)

/-- C3 (code bug): an anchor whose marker is the art-tag abbreviation
`atag%3A` is routed into the FUNCTION category, because
`"atag".startsWith("art")` is false — the claim (and the evident intent:
`atag` is the abbreviated form of `arttag`, exactly as `otag` abbreviates
`oracletag`) places it in the art category.  The full-form `arttag%3A` and
the oracle markers are routed as the claim states. -/
theorem fetchTaggerTags_atag_misrouted :
    fetchTaggerTags [⟨"atag%3A", "Foo"⟩] = ⟨["Foo"], []⟩ ∧
    fetchTaggerTags [⟨"arttag%3A", "Foo"⟩] = ⟨[], ["Foo"]⟩ ∧
    fetchTaggerTags [⟨"otag%3A", "Bar"⟩, ⟨"oracletag%3A", "bar"⟩, ⟨"ATAG%3A", "Zap"⟩] =
      ⟨["Bar", "bar", "Zap"], []⟩ := by
  refine ⟨?_, ?_, ?_⟩ <;> decide

theorem kebab_not_hyphen {c : Char} (hk : isKebabChar c = true) : c ≠ '-' := by
  intro h
  subst h
  exact absurd hk (by decide)

theorem goodChar_toLower {c : Char} (hg : goodChar c = true) : Char.toLower c = c := by
  rw [goodChar, Bool.or_eq_true] at hg
  rcases hg with hk | hh
  · rw [isKebabChar, Bool.or_eq_true] at hk
    rcases hk with h | h
    · simp only [Bool.and_eq_true, decide_eq_true_eq] at h
      obtain ⟨h1, h2⟩ := h
      simp [Char.le_def] at h1 h2
      have t1 : 97 ≤ c.toNat := h1
      have t2 : c.toNat ≤ 122 := h2
      rw [Char.toLower, if_neg (by omega)]
    · simp only [Bool.and_eq_true, decide_eq_true_eq] at h
      obtain ⟨h1, h2⟩ := h
      simp [Char.le_def] at h1 h2
      have t1 : 48 ≤ c.toNat := h1
      have t2 : c.toNat ≤ 57 := h2
      rw [Char.toLower, if_neg (by omega)]
  · rw [beq_iff_eq.mp hh]
    decide

theorem goodChar_not_space {c : Char} (hg : goodChar c = true) : isJsSpace c = false := by
  cases hjs : isJsSpace c with
  | false => rfl
  | true =>
    exfalso
    simp only [isJsSpace, Bool.or_eq_true, beq_iff_eq] at hjs
    rcases hjs with ((((h | h) | h) | h) | h) | h <;> · subst h; exact absurd hg (by decide)

theorem mem_collapseAux : ∀ (l : List Char) (b : Bool) (c : Char),
    c ∈ collapseAux b l → goodChar c = true := by
  intro l
  induction l with
  | nil => intro b c hc; simp [collapseAux] at hc
  | cons a rest ih =>
    intro b c hc
    rw [collapseAux] at hc
    by_cases hk : isKebabChar a
    · rw [if_pos hk] at hc
      rcases List.mem_cons.mp hc with h | h
      · subst h; simp [goodChar, hk]
      · exact ih false c h
    · rw [if_neg hk] at hc
      cases b with
      | true =>
        rw [if_pos rfl] at hc
        exact ih true c hc
      | false =>
        rw [if_neg (by simp)] at hc
        rcases List.mem_cons.mp hc with h | h
        · subst h; decide
        · exact ih true c h

theorem head_collapseAux_true : ∀ (l : List Char) (c : Char),
    (collapseAux true l).head? = some c → isKebabChar c = true := by
  intro l
  induction l with
  | nil => intro c hc; simp [collapseAux] at hc
  | cons a rest ih =>
    intro c hc
    rw [collapseAux] at hc
    by_cases hk : isKebabChar a
    · rw [if_pos hk, List.head?_cons] at hc
      obtain rfl : a = c := by injection hc
      exact hk
    · rw [if_neg hk, if_pos rfl] at hc
      exact ih c hc

theorem chain_collapseAux : ∀ (l : List Char) (b : Bool),
    List.Chain' noHH (collapseAux b l) := by
  intro l
  induction l with
  | nil => intro b; simp [collapseAux]
  | cons a rest ih =>
    intro b
    rw [collapseAux]
    by_cases hk : isKebabChar a
    · rw [if_pos hk, List.chain'_cons']
      refine ⟨?_, ih false⟩
      intro y hy
      rintro ⟨ha, -⟩
      exact kebab_not_hyphen hk ha
    · rw [if_neg hk]
      cases b with
      | true => rw [if_pos rfl]; exact ih true
      | false =>
        rw [if_neg (by simp), List.chain'_cons']
        refine ⟨?_, ih true⟩
        intro y hy
        rintro ⟨-, hy2⟩
        exact kebab_not_hyphen (head_collapseAux_true rest y (Option.mem_def.mp hy)) hy2

theorem collapseAux_fix : ∀ (l : List Char),
    (∀ c ∈ l, goodChar c = true) → List.Chain' noHH l →
    collapseAux false l = l ∧
      ((∀ c, l.head? = some c → c ≠ '-') → collapseAux true l = l) := by
  intro l
  induction l with
  | nil => exact fun _ _ => ⟨rfl, fun _ => rfl⟩
  | cons a rest ih =>
    intro hmem hch
    have hrest := ih (fun c hc => hmem c (List.mem_cons_of_mem a hc)) hch.tail
    have hga : goodChar a = true := hmem a (List.mem_cons_self a rest)
    rw [goodChar, Bool.or_eq_true] at hga
    rcases hga with hk | hh
    · constructor
      · rw [collapseAux, if_pos hk, hrest.1]
      · intro _
        rw [collapseAux, if_pos hk, hrest.1]
    · obtain rfl : a = '-' := beq_iff_eq.mp hh
      have hknot : ¬(isKebabChar '-' = true) := by decide
      constructor
      · rw [collapseAux, if_neg hknot, if_neg (by simp)]
        have hhd : ∀ c, rest.head? = some c → c ≠ '-' := by
          intro c hc heq
          exact (List.chain'_cons'.mp hch).1 c (Option.mem_def.mpr hc) ⟨rfl, heq⟩
        rw [hrest.2 hhd]
      · intro hhead
        exact absurd rfl (hhead '-' List.head?_cons)

theorem dropWhile_eq_self_of_mem (p : Char → Bool) (l : List Char)
    (h : ∀ c ∈ l, p c = false) : l.dropWhile p = l := by
  cases l with
  | nil => rfl
  | cons a t =>
    rw [List.dropWhile_cons, if_neg]
    simp [h a (List.mem_cons_self a t)]

theorem head_dropWhile_not (p : Char → Bool) :
    ∀ (l : List Char) (c : Char), (l.dropWhile p).head? = some c → p c = false := by
  intro l
  induction l with
  | nil => intro c h; simp [List.dropWhile] at h
  | cons a t ih =>
    intro c h
    rw [List.dropWhile_cons] at h
    by_cases hp : p a
    · rw [if_pos hp] at h; exact ih c h
    · rw [if_neg hp] at h
      rw [List.head?_cons] at h
      obtain rfl : a = c := by injection h
      simpa using hp

theorem map_id_of_mem (f : Char → Char) : ∀ (l : List Char),
    (∀ c ∈ l, f c = c) → l.map f = l := by
  intro l
  induction l with
  | nil => exact fun _ => rfl
  | cons a t ih =>
    intro h
    rw [List.map_cons, h a (List.mem_cons_self a t),
      ih (fun c hc => h c (List.mem_cons_of_mem a hc))]

theorem mem_stripHyphens (l : List Char) (c : Char) (hc : c ∈ stripHyphens l) : c ∈ l := by
  rw [stripHyphens] at hc
  rw [List.mem_reverse] at hc
  have h1 := (List.dropWhile_suffix (fun c => c == '-')).sublist.subset hc
  rw [List.mem_reverse] at h1
  exact (List.dropWhile_suffix (fun c => c == '-')).sublist.subset h1

theorem noHH_symm {a b : Char} (h : noHH a b) : noHH b a := fun hab => h ⟨hab.2, hab.1⟩

theorem chain_stripHyphens (l : List Char) (h : List.Chain' noHH l) :
    List.Chain' noHH (stripHyphens l) := by
  rw [stripHyphens]
  have h1 : List.Chain' noHH (l.dropWhile (fun c => c == '-')) :=
    h.suffix (List.dropWhile_suffix _)
  have h2 : List.Chain' noHH (l.dropWhile (fun c => c == '-')).reverse :=
    List.chain'_reverse.mpr (h1.imp (fun _ _ hab => noHH_symm hab))
  have h3 : List.Chain' noHH
      ((l.dropWhile (fun c => c == '-')).reverse.dropWhile (fun c => c == '-')) :=
    h2.suffix (List.dropWhile_suffix _)
  exact List.chain'_reverse.mpr (h3.imp (fun _ _ hab => noHH_symm hab))

theorem head_stripHyphens (l : List Char) :
    ∀ c, (stripHyphens l).head? = some c → c ≠ '-' := by
  intro c hc
  rw [stripHyphens] at hc
  have hsuf : ((l.dropWhile (fun c => c == '-')).reverse.dropWhile (fun c => c == '-')) <:+
      (l.dropWhile (fun c => c == '-')).reverse := List.dropWhile_suffix _
  have hsuf2 : ((l.dropWhile (fun c => c == '-')).reverse.dropWhile
      (fun c => c == '-')).reverse.reverse <:+ (l.dropWhile (fun c => c == '-')).reverse := by
    rw [List.reverse_reverse]
    exact hsuf
  have hpre := List.reverse_suffix.mp hsuf2
  obtain ⟨t, ht⟩ := hpre
  have hA : (l.dropWhile (fun c => c == '-')).head? = some c := by
    rw [← ht, List.head?_append, hc]
    rfl
  have := head_dropWhile_not (fun c => c == '-') l c hA
  simpa using this

theorem last_stripHyphens (l : List Char) :
    ∀ c, (stripHyphens l).reverse.head? = some c → c ≠ '-' := by
  intro c hc
  rw [stripHyphens, List.reverse_reverse] at hc
  have := head_dropWhile_not (fun c => c == '-') (l.dropWhile (fun c => c == '-')).reverse c hc
  simpa using this

theorem stripHyphens_eq_self (l : List Char)
    (hhead : ∀ c, l.head? = some c → c ≠ '-')
    (hlast : ∀ c, l.reverse.head? = some c → c ≠ '-') :
    stripHyphens l = l := by
  rw [stripHyphens]
  have h1 : l.dropWhile (fun c => c == '-') = l := by
    cases hl : l with
    | nil => rfl
    | cons a t =>
      rw [List.dropWhile_cons, if_neg]
      have := hhead a (by rw [hl, List.head?_cons])
      simp [this]
  rw [h1]
  have h2 : l.reverse.dropWhile (fun c => c == '-') = l.reverse := by
    cases hl : l.reverse with
    | nil => rfl
    | cons a t =>
      rw [List.dropWhile_cons, if_neg]
      have := hlast a (by rw [hl, List.head?_cons])
      simp [this]
  rw [h2, List.reverse_reverse]

theorem toKebabTag_fix_of_clean (Y : List Char)
    (hmem : ∀ c ∈ Y, goodChar c = true)
    (hch : List.Chain' noHH Y)
    (hhead : ∀ c, Y.head? = some c → c ≠ '-')
    (hlast : ∀ c, Y.reverse.head? = some c → c ≠ '-') :
    toKebabTag (String.mk Y) = String.mk Y := by
  have hns : ∀ c ∈ Y, isJsSpace c = false := fun c hc => goodChar_not_space (hmem c hc)
  have htrim : jsTrim (String.mk Y) = String.mk Y := by
    rw [jsTrim]
    have hd : (String.mk Y).data = Y := rfl
    rw [hd, dropWhile_eq_self_of_mem _ _ hns,
      dropWhile_eq_self_of_mem _ _ (fun c hc => hns c (List.mem_reverse.mp hc)),
      List.reverse_reverse]
  rw [toKebabTag, htrim]
  have hd : (String.mk Y).data = Y := rfl
  rw [hd, map_id_of_mem _ _ (fun c hc => goodChar_toLower (hmem c hc)),
    (collapseAux_fix Y hmem hch).1, stripHyphens_eq_self Y hhead hlast]

/-- C10: `toKebabTag` is idempotent — its output consists of lowercase
ASCII alphanumerics and isolated interior hyphens with no leading or
trailing hyphen, and every pipeline stage fixes such strings. -/
theorem toKebabTag_idempotent (s : String) : toKebabTag (toKebabTag s) = toKebabTag s := by
  have hmem : ∀ c ∈ stripHyphens (collapseAux false ((jsTrim s).data.map Char.toLower)),
      goodChar c = true :=
    fun c hc => mem_collapseAux _ false c (mem_stripHyphens _ c hc)
  have hch := chain_stripHyphens _ (chain_collapseAux ((jsTrim s).data.map Char.toLower) false)
  have hhead := head_stripHyphens (collapseAux false ((jsTrim s).data.map Char.toLower))
  have hlast := last_stripHyphens (collapseAux false ((jsTrim s).data.map Char.toLower))
  exact toKebabTag_fix_of_clean _ hmem hch hhead hlast

end ScryfallConnector
